import Mathlib

/-!
Verification of the mtlsproxy repository: a shallow embedding in Lean 4 of the
profile data model, the configuration merge, the Instance command surface
(`AdaptTo`/`Stop`), the Instance event loop, the TLS-config builders and the
supervisor reload cycle, together with theorems settling the specification
claims about them.
-/

set_option autoImplicit false

namespace MtlsProxy

/-- Profile mirrors the Go struct `Profile` (current variant, part_000 lines
15-33): seventeen string fields; the Go zero value is the empty string. -/
structure Profile where
  Name                : String := ""
  Listen              : String := ""
  Proxy               : String := ""
  Protocol            : String := ""
  ListenCertPath      : String := ""
  ListenCertRaw       : String := ""
  ListenPrivatePath   : String := ""
  ListenPrivateRaw    : String := ""
  ListenAuthorityPath : String := ""
  ListenAuthorityRaw  : String := ""
  SendCertPath        : String := ""
  SendCertRaw         : String := ""
  SendPrivatePath     : String := ""
  SendPrivateRaw      : String := ""
  SendAuthorityPath   : String := ""
  SendAuthorityRaw    : String := ""
  Source              : String := ""
deriving DecidableEq, Inhabited

/-- ProfileOld mirrors the older variant of the Go struct `Profile`
(part_000 lines 418-432), where the cert and private key are shared between
the listen and the send side. -/
structure ProfileOld where
  Name                : String := ""
  Listen              : String := ""
  Proxy               : String := ""
  Protocol            : String := ""
  CertPath            : String := ""
  CertRaw             : String := ""
  PrivatePath         : String := ""
  PrivateRaw          : String := ""
  ListenAuthorityPath : String := ""
  ListenAuthorityRaw  : String := ""
  SendAuthorityPath   : String := ""
  SendAuthorityRaw    : String := ""
  Source              : String := ""
deriving DecidableEq, Inhabited

/-- Profile.Copy mirrors Go `Profile.Copy` (part_000 lines 292-312): a
field-by-field copy of every field. -/
def Profile.Copy (p : Profile) : Profile :=
  { Name := p.Name
    Listen := p.Listen
    Proxy := p.Proxy
    Protocol := p.Protocol
    ListenCertPath := p.ListenCertPath
    ListenCertRaw := p.ListenCertRaw
    ListenPrivatePath := p.ListenPrivatePath
    ListenPrivateRaw := p.ListenPrivateRaw
    ListenAuthorityPath := p.ListenAuthorityPath
    ListenAuthorityRaw := p.ListenAuthorityRaw
    SendCertPath := p.SendCertPath
    SendCertRaw := p.SendCertRaw
    SendPrivatePath := p.SendPrivatePath
    SendPrivateRaw := p.SendPrivateRaw
    SendAuthorityPath := p.SendAuthorityPath
    SendAuthorityRaw := p.SendAuthorityRaw
    Source := p.Source }

theorem Profile.copy_eq (p : Profile) : p.Copy = p := rfl

/-- mergeField is the per-field rule used by Go `mergeProfile` (part_000
lines 236-280): `if len(a.F) < 1 { a.F = b.F }`, i.e. the accumulator field
wins unless it is empty. -/
def mergeField (a b : String) : String :=
  if a.length < 1 then b else a

/-- mergeProfile mirrors Go `mergeProfile` (part_000 lines 225-282) on the
non-nil path taken from `mergeProfiles` (both pointers are always non-nil
there): each of the fifteen option fields is merged with `mergeField`;
`Name` and `Source` are not touched. -/
def mergeProfile (a b : Profile) : Profile :=
  { a with
    Listen := mergeField a.Listen b.Listen
    Proxy := mergeField a.Proxy b.Proxy
    Protocol := mergeField a.Protocol b.Protocol
    SendCertPath := mergeField a.SendCertPath b.SendCertPath
    SendCertRaw := mergeField a.SendCertRaw b.SendCertRaw
    ListenCertPath := mergeField a.ListenCertPath b.ListenCertPath
    ListenCertRaw := mergeField a.ListenCertRaw b.ListenCertRaw
    ListenPrivatePath := mergeField a.ListenPrivatePath b.ListenPrivatePath
    ListenPrivateRaw := mergeField a.ListenPrivateRaw b.ListenPrivateRaw
    SendPrivatePath := mergeField a.SendPrivatePath b.SendPrivatePath
    SendPrivateRaw := mergeField a.SendPrivateRaw b.SendPrivateRaw
    ListenAuthorityPath := mergeField a.ListenAuthorityPath b.ListenAuthorityPath
    ListenAuthorityRaw := mergeField a.ListenAuthorityRaw b.ListenAuthorityRaw
    SendAuthorityPath := mergeField a.SendAuthorityPath b.SendAuthorityPath
    SendAuthorityRaw := mergeField a.SendAuthorityRaw b.SendAuthorityRaw }

/-- mergeInto is the body of the loop in Go `mergeProfiles` (part_000 lines
207-221) for one incoming profile: the first accumulator entry with the same
name is replaced by the merge, otherwise the profile is appended at the end. -/
def mergeInto : List Profile → Profile → List Profile
  | [], p => [p]
  | a :: rest, p =>
      if a.Name = p.Name then mergeProfile a p :: rest
      else a :: mergeInto rest p

/-- mergeProfiles mirrors Go `mergeProfiles` (part_000 lines 204-223): fold
the incoming profiles into the accumulator one at a time. -/
def mergeProfiles (b : List Profile) (n : List Profile) : List Profile :=
  n.foldl mergeInto b

/-- firstByName returns the first profile in the list with the given name,
modelling the linear search `for i := range result` in Go `mergeProfiles`. -/
def firstByName : List Profile → String → Option Profile
  | [], _ => none
  | a :: rest, nm => if a.Name = nm then some a else firstByName rest nm

theorem mergeField_self (a : String) : mergeField a a = a := by
  unfold mergeField; split <;> rfl

theorem string_eq_empty_of_len (s : String) (h : s.length < 1) : s = "" := by
  cases s with
  | mk data =>
      cases data with
      | nil => rfl
      | cons c cs => simp [String.length] at h

theorem mergeField_absorb_self (a b : String) :
    mergeField (mergeField a b) b = mergeField a b := by
  by_cases h : a.length < 1
  · by_cases hb : b.length < 1 <;> simp [mergeField, h, hb]
  · simp [mergeField, h]

theorem mergeField_absorb_mono (a b c : String) (h : mergeField a b = a) :
    mergeField (mergeField a c) b = mergeField a c := by
  by_cases ha : a.length < 1
  · have hb : b = a := by simpa [mergeField, ha] using h
    have ha0 : a = "" := string_eq_empty_of_len a ha
    subst hb
    subst ha0
    by_cases hc : c.length < 1
    · have hc0 : c = "" := string_eq_empty_of_len c hc
      subst hc0
      rfl
    · simp [mergeField, hc]
  · simp [mergeField, ha]

theorem mergeProfile_self (p : Profile) : mergeProfile p p = p := by
  cases p
  simp [mergeProfile, mergeField_self]

theorem mergeProfile_absorb_self (a b : Profile) :
    mergeProfile (mergeProfile a b) b = mergeProfile a b := by
  cases a
  simp [mergeProfile, mergeField_absorb_self]

theorem mergeProfile_absorb_mono (a b c : Profile) (h : mergeProfile a b = a) :
    mergeProfile (mergeProfile a c) b = mergeProfile a c := by
  cases a
  simp [mergeProfile] at h ⊢
  obtain ⟨h1, h2, h3, h4, h5, h6, h7, h8, h9, h10, h11, h12, h13, h14, h15⟩ := h
  exact ⟨mergeField_absorb_mono _ _ _ h1, mergeField_absorb_mono _ _ _ h2,
    mergeField_absorb_mono _ _ _ h3, mergeField_absorb_mono _ _ _ h4,
    mergeField_absorb_mono _ _ _ h5, mergeField_absorb_mono _ _ _ h6,
    mergeField_absorb_mono _ _ _ h7, mergeField_absorb_mono _ _ _ h8,
    mergeField_absorb_mono _ _ _ h9, mergeField_absorb_mono _ _ _ h10,
    mergeField_absorb_mono _ _ _ h11, mergeField_absorb_mono _ _ _ h12,
    mergeField_absorb_mono _ _ _ h13, mergeField_absorb_mono _ _ _ h14,
    mergeField_absorb_mono _ _ _ h15⟩

theorem mergeProfile_name (a b : Profile) : (mergeProfile a b).Name = a.Name := rfl

/-- AbsorbedIn l p: the first entry of l named p.Name exists and merging p
into it again changes nothing. -/
def AbsorbedIn (l : List Profile) (p : Profile) : Prop :=
  ∃ e, firstByName l p.Name = some e ∧ mergeProfile e p = e

theorem mergeInto_of_absorbed (l : List Profile) (p : Profile)
    (h : AbsorbedIn l p) : mergeInto l p = l := by
  induction l with
  | nil => obtain ⟨e, he, _⟩ := h; simp [firstByName] at he
  | cons a rest ih =>
      obtain ⟨e, he, hm⟩ := h
      by_cases hn : a.Name = p.Name
      · simp [firstByName, hn] at he
        subst he
        simp [mergeInto, hn, hm]
      · simp [firstByName, hn] at he
        simp [mergeInto, hn]
        exact ih ⟨e, he, hm⟩

theorem absorbed_mergeInto_self (l : List Profile) (p : Profile) :
    AbsorbedIn (mergeInto l p) p := by
  induction l with
  | nil => exact ⟨p, by simp [mergeInto, firstByName], mergeProfile_self p⟩
  | cons a rest ih =>
      by_cases hn : a.Name = p.Name
      · refine ⟨mergeProfile a p, ?_, mergeProfile_absorb_self a p⟩
        simp [mergeInto, hn, firstByName, mergeProfile_name]
      · obtain ⟨e, he, hm⟩ := ih
        refine ⟨e, ?_, hm⟩
        simp [mergeInto, hn, firstByName, he]

theorem absorbed_mergeInto_other (l : List Profile) (p q : Profile)
    (h : AbsorbedIn l p) : AbsorbedIn (mergeInto l q) p := by
  induction l with
  | nil => obtain ⟨e, he, _⟩ := h; simp [firstByName] at he
  | cons a rest ih =>
      obtain ⟨e, he, hm⟩ := h
      by_cases hq : a.Name = q.Name
      · by_cases hp : a.Name = p.Name
        · rw [firstByName, if_pos hp] at he
          have hea : e = a := (Option.some.inj he).symm
          subst hea
          refine ⟨mergeProfile e q, ?_, mergeProfile_absorb_mono e p q hm⟩
          rw [mergeInto, if_pos hq, firstByName,
            if_pos (by rw [mergeProfile_name]; exact hp)]
        · rw [firstByName, if_neg hp] at he
          refine ⟨e, ?_, hm⟩
          rw [mergeInto, if_pos hq, firstByName,
            if_neg (by rw [mergeProfile_name]; exact hp)]
          exact he
      · by_cases hp : a.Name = p.Name
        · rw [firstByName, if_pos hp] at he
          have hea : e = a := (Option.some.inj he).symm
          subst hea
          refine ⟨e, ?_, hm⟩
          rw [mergeInto, if_neg hq, firstByName, if_pos hp]
        · rw [firstByName, if_neg hp] at he
          obtain ⟨e2, he2, hm2⟩ := ih ⟨e, he, hm⟩
          refine ⟨e2, ?_, hm2⟩
          rw [mergeInto, if_neg hq, firstByName, if_neg hp]
          exact he2

theorem absorbed_foldl (l : List Profile) (n : List Profile) (p : Profile)
    (h : AbsorbedIn l p) : AbsorbedIn (n.foldl mergeInto l) p := by
  induction n generalizing l with
  | nil => exact h
  | cons q rest ih => exact ih (mergeInto l q) (absorbed_mergeInto_other l p q h)

theorem absorbed_of_mem (b : List Profile) (n : List Profile) (p : Profile)
    (hp : p ∈ n) : AbsorbedIn (mergeProfiles b n) p := by
  induction n generalizing b with
  | nil => cases hp
  | cons q rest ih =>
      rcases List.mem_cons.mp hp with hq | hr
      · subst hq
        exact absorbed_foldl (mergeInto b p) rest p (absorbed_mergeInto_self b p)
      · exact ih (mergeInto b q) hr

theorem foldl_of_all_absorbed (l : List Profile) (n : List Profile)
    (h : ∀ p ∈ n, AbsorbedIn l p) : n.foldl mergeInto l = l := by
  induction n with
  | nil => rfl
  | cons q rest ih =>
      have hq : mergeInto l q = l := mergeInto_of_absorbed l q (h q (by simp))
      simp only [List.foldl_cons, hq]
      exact ih (fun p hp => h p (by simp [hp]))

/-- Claim C5: profile merging is idempotent. For every accumulator list b and
incoming profile list n, merging n a second time into the already-merged
result `mergeProfiles b n` changes nothing, because each field of the merge
follows the first-non-empty-wins rule of `mergeProfile`. -/
theorem mergeProfiles_idempotent (b n : List Profile) :
    mergeProfiles (mergeProfiles b n) n = mergeProfiles b n :=
  foldl_of_all_absorbed (mergeProfiles b n) n
    (fun p hp => absorbed_of_mem b n p hp)

/-- ListenChanged mirrors Go `Profile.ListenChanged` (part_000 lines 363-381):
an early-return chain of inequality tests on the listen-side fields. -/
def ListenChanged (p q : Profile) : Bool :=
  if p.Listen ≠ q.Listen then true
  else if p.Protocol ≠ q.Protocol then true
  else if p.ListenAuthorityRaw ≠ q.ListenAuthorityRaw then true
  else if p.ListenCertRaw ≠ q.ListenCertRaw then true
  else if p.ListenPrivateRaw ≠ q.ListenPrivateRaw then true
  else false

/-- DestinationChanged mirrors Go `Profile.DestinationChanged` (part_000
lines 385-403). -/
def DestinationChanged (p q : Profile) : Bool :=
  if p.Proxy ≠ q.Proxy then true
  else if p.Protocol ≠ q.Protocol then true
  else if p.SendAuthorityRaw ≠ q.SendAuthorityRaw then true
  else if p.SendCertRaw ≠ q.SendCertRaw then true
  else if p.SendPrivateRaw ≠ q.SendPrivateRaw then true
  else false

/-- ListenChangedOld mirrors the older variant `Profile.ListenChanged`
(part_000 lines 716-739): the cert and key comparisons are guarded by
`len(p.ListenAuthorityRaw) > 1` on the receiver. -/
def ListenChangedOld (p q : ProfileOld) : Bool :=
  if p.Listen ≠ q.Listen then true
  else if p.Protocol ≠ q.Protocol then true
  else if p.ListenAuthorityRaw ≠ q.ListenAuthorityRaw then true
  else if p.ListenAuthorityRaw.length > 1 then
    if p.CertRaw ≠ q.CertRaw then true
    else if p.PrivateRaw ≠ q.PrivateRaw then true
    else false
  else false

/-- DestinationChangedOld mirrors the older variant
`Profile.DestinationChanged` (part_000 lines 743-766). -/
def DestinationChangedOld (p q : ProfileOld) : Bool :=
  if p.Proxy ≠ q.Proxy then true
  else if p.Protocol ≠ q.Protocol then true
  else if p.SendAuthorityRaw ≠ q.SendAuthorityRaw then true
  else if p.SendAuthorityRaw.length > 1 then
    if p.CertRaw ≠ q.CertRaw then true
    else if p.PrivateRaw ≠ q.PrivateRaw then true
    else false
  else false

theorem ListenChanged_symm (p q : Profile) :
    ListenChanged p q = ListenChanged q p := by
  unfold ListenChanged
  by_cases h1 : p.Listen = q.Listen <;>
  by_cases h2 : p.Protocol = q.Protocol <;>
  by_cases h3 : p.ListenAuthorityRaw = q.ListenAuthorityRaw <;>
  by_cases h4 : p.ListenCertRaw = q.ListenCertRaw <;>
  by_cases h5 : p.ListenPrivateRaw = q.ListenPrivateRaw <;>
  simp [h1, h2, h3, h4, h5, Ne, eq_comm]

theorem DestinationChanged_symm (p q : Profile) :
    DestinationChanged p q = DestinationChanged q p := by
  unfold DestinationChanged
  by_cases h1 : p.Proxy = q.Proxy <;>
  by_cases h2 : p.Protocol = q.Protocol <;>
  by_cases h3 : p.SendAuthorityRaw = q.SendAuthorityRaw <;>
  by_cases h4 : p.SendCertRaw = q.SendCertRaw <;>
  by_cases h5 : p.SendPrivateRaw = q.SendPrivateRaw <;>
  simp [h1, h2, h3, h4, h5, Ne, eq_comm]

theorem ListenChangedOld_symm (p q : ProfileOld) :
    ListenChangedOld p q = ListenChangedOld q p := by
  unfold ListenChangedOld
  by_cases h1 : p.Listen = q.Listen <;>
  by_cases h2 : p.Protocol = q.Protocol <;>
  by_cases h3 : p.ListenAuthorityRaw = q.ListenAuthorityRaw <;>
  by_cases h4 : p.CertRaw = q.CertRaw <;>
  by_cases h5 : p.PrivateRaw = q.PrivateRaw <;>
  simp [h1, h2, h3, h4, h5, Ne, eq_comm]

theorem DestinationChangedOld_symm (p q : ProfileOld) :
    DestinationChangedOld p q = DestinationChangedOld q p := by
  unfold DestinationChangedOld
  by_cases h1 : p.Proxy = q.Proxy <;>
  by_cases h2 : p.Protocol = q.Protocol <;>
  by_cases h3 : p.SendAuthorityRaw = q.SendAuthorityRaw <;>
  by_cases h4 : p.CertRaw = q.CertRaw <;>
  by_cases h5 : p.PrivateRaw = q.PrivateRaw <;>
  simp [h1, h2, h3, h4, h5, Ne, eq_comm]

/-- Claim C6: the ListenChanged and DestinationChanged predicates are
symmetric, in the current variant of the code and in the older variant
(whose cert and key comparisons are guarded by the length of the equal
authority field, so the guard coincides on both sides). -/
theorem changed_predicates_symmetric :
    (∀ p q : Profile, ListenChanged p q = ListenChanged q p) ∧
    (∀ p q : Profile, DestinationChanged p q = DestinationChanged q p) ∧
    (∀ p q : ProfileOld, ListenChangedOld p q = ListenChangedOld q p) ∧
    (∀ p q : ProfileOld, DestinationChangedOld p q = DestinationChangedOld q p) :=
  ⟨ListenChanged_symm, DestinationChanged_symm,
    ListenChangedOld_symm, DestinationChangedOld_symm⟩

/-! Environment-variable harvesting (`profilesFromEnv`, part_000 lines
132-202). The process environment is modelled as an association list of
(key, value) pairs; Go's `os.Environ()` yields the strings "key=value" and
`os.Getenv` looks a value up by key (empty string when absent). -/

/-- environStrings models Go `os.Environ()`: one "key=value" string per
environment entry. -/
def environStrings (env : List (String × String)) : List String :=
  env.map (fun kv => kv.1 ++ "=" ++ kv.2)

/-- getenv models Go `os.Getenv`: the value of the first entry with the
given key, or the empty string. -/
def getenv (env : List (String × String)) (k : String) : String :=
  match env.find? (fun kv => kv.1 == k) with
  | some kv => kv.2
  | none => ""

/-- envProfileHead is the Go constant `EnvProfilePrefix` (part_000 line 41). -/
def envProfileHead : String := "MTLSPROXY_PROFILE_"

def EnvProtocolSuffix : String := "_PROTOCOL"

def EnvListenSuffix : String := "_LISTEN"

def EnvProxySuffix : String := "_PROXY"

def EnvListenCertSuffix : String := "_CERT_LISTEN"

def EnvSendCertSuffix : String := "_CERT_SEND"

def EnvListenPrivateSuffix : String := "_PRIVATE_LISTEN"

def EnvSendPrivateSuffix : String := "_PRIVATE_SEND"

def EnvAuthorityListenSuffix : String := "_AUTHORITY_LISTEN"

def EnvAuthoritySendSuffix : String := "_AUTHORITY_SEND"

/-- strHasSuffix models Go `strings.HasSuffix` on the character sequence of
the string (the inputs here are ASCII, so bytes and characters agree). -/
def strHasSuffix (x s : String) : Bool := List.isSuffixOf s.data x.data

/-- strHasHead models Go `strings.HasPrefix` on the character sequence. -/
def strHasHead (x s : String) : Bool := List.isPrefixOf s.data x.data

/-- strDrop models the Go slice `x[n:]` on the character sequence. -/
def strDrop (x : String) (n : Nat) : String := String.mk (x.data.drop n)

/-- profileSuffix mirrors Go `profileSuffix` (part_000 lines 284-290). Note
that `x[index:]` with `index = len(x) - len(s)` keeps the LAST `len(s)`
bytes of `x`, i.e. it returns the matched suffix itself, not the part of
`x` before it. -/
def profileSuffix (x s : String) : String :=
  if strHasSuffix x s then strDrop x (x.length - s.length) else ""

/-- findoradd mirrors the closure `findoradd` in Go `profilesFromEnv`
(part_000 lines 136-146) combined with the field assignment that follows
it: the first profile with the given name is updated in place, otherwise a
fresh zero-valued profile with that name is appended and updated. -/
def findoradd (ps : List Profile) (name : String) (upd : Profile → Profile) :
    List Profile :=
  match ps with
  | [] => [upd { Name := name }]
  | p :: rest =>
      if p.Name = name then upd p :: rest
      else p :: findoradd rest name upd

/-- envStep is the body of the second loop of Go `profilesFromEnv` (part_000
lines 154-200) for one matched environment string `x` (the full
"NAME_SUFFIX=value" text after the `MTLSPROXY_PROFILE_` head, exactly as
the Go code leaves it). -/
def envStep (env : List (String × String)) (ps : List Profile) (x : String) :
    List Profile :=
  if (profileSuffix x EnvListenSuffix).length > 0 then
    findoradd ps (profileSuffix x EnvListenSuffix)
      (fun p => { p with Listen := getenv env (envProfileHead ++ x) })
  else if (profileSuffix x EnvProxySuffix).length > 0 then
    findoradd ps (profileSuffix x EnvProxySuffix)
      (fun p => { p with Proxy := getenv env (envProfileHead ++ x) })
  else if (profileSuffix x EnvProtocolSuffix).length > 0 then
    findoradd ps (profileSuffix x EnvProtocolSuffix)
      (fun p => { p with Protocol := getenv env (envProfileHead ++ x) })
  else if (profileSuffix x EnvListenCertSuffix).length > 0 then
    findoradd ps (profileSuffix x EnvListenCertSuffix)
      (fun p => { p with ListenCertRaw := getenv env (envProfileHead ++ x) })
  else if (profileSuffix x EnvSendCertSuffix).length > 0 then
    findoradd ps (profileSuffix x EnvSendCertSuffix)
      (fun p => { p with SendCertRaw := getenv env (envProfileHead ++ x) })
  else if (profileSuffix x EnvListenPrivateSuffix).length > 0 then
    findoradd ps (profileSuffix x EnvListenPrivateSuffix)
      (fun p => { p with ListenPrivateRaw := getenv env (envProfileHead ++ x) })
  else if (profileSuffix x EnvSendPrivateSuffix).length > 0 then
    findoradd ps (profileSuffix x EnvSendPrivateSuffix)
      (fun p => { p with SendPrivateRaw := getenv env (envProfileHead ++ x) })
  else if (profileSuffix x EnvAuthorityListenSuffix).length > 0 then
    findoradd ps (profileSuffix x EnvAuthorityListenSuffix)
      (fun p => { p with ListenAuthorityRaw := getenv env (envProfileHead ++ x) })
  else if (profileSuffix x EnvAuthoritySendSuffix).length > 0 then
    findoradd ps (profileSuffix x EnvAuthoritySendSuffix)
      (fun p => { p with SendAuthorityRaw := getenv env (envProfileHead ++ x) })
  else ps

/-- profilesFromEnv mirrors Go `profilesFromEnv` (part_000 lines 132-202):
collect the environ strings that start with `MTLSPROXY_PROFILE_`, strip
that head, then process each remainder with `envStep`. -/
def profilesFromEnv (env : List (String × String)) : List Profile :=
  let matched := (environStrings env).filterMap
    (fun x => if strHasHead x envProfileHead then some (strDrop x envProfileHead.length) else none)
  matched.foldl (envStep env) []

set_option maxRecDepth 20000 in
/-- Claim C2, evaluated at the failing input: with the environment holding
exactly MTLSPROXY_PROFILE_ALPHA_LISTEN=127.0.0.1:9001 (a recognized suffix
and an arbitrary NAME, as the claim requires), `profilesFromEnv` produces no
profile at all, because the suffix test runs against the full
"NAME_SUFFIX=value" environ string rather than the key. And for
MTLSPROXY_PROFILE_A_PROXY=b_LISTEN, where a recognized suffix happens to end
the value, the produced profile is named "_LISTEN" — the matched suffix
itself, which is what `profileSuffix` returns — rather than the NAME, and
the looked-up value is empty. Both outcomes contradict the claim that a
profile named NAME is produced with the corresponding field set to the
variable's value. -/
theorem profilesFromEnv_failing_eval :
    profilesFromEnv [("MTLSPROXY_PROFILE_ALPHA_LISTEN", "127.0.0.1:9001")] = [] ∧
    profilesFromEnv [("MTLSPROXY_PROFILE_A_PROXY", "b_LISTEN")] =
      [{ Name := "_LISTEN" }] := by
  exact ⟨by decide, by decide⟩

/-! Configuration snapshot (`Configurations.getProfiles`, part_000 lines
57-109). The filesystem is modelled by `DirState`: opening the directory
may fail; otherwise it yields the entries enumerated before an optional
read failure. A regular file carries the outcome of TOML decoding — an
error or a table of name-keyed profiles (as an ordered association list). -/

/-- Configurations mirrors the Go struct (part_000 lines 35-38). -/
structure Configurations where
  ConfigDir : String
  Profiles : List Profile

/-- DirItem: one directory entry, as seen by the loop body (part_000 lines
84-105): a subdirectory (skipped) or a regular file together with the
result of `toml.DecodeFile` on it. -/
inductive DirItem where
  | subdir (name : String)
  | file (name : String) (decoded : Except String (List (String × Profile)))

/-- DirState: the outcome of `os.Open` plus the `ReadDir` loop (part_000
lines 67-83): opening fails, or the entries listed before an optional
read failure (`none` means the loop ended at io.EOF). -/
inductive DirState where
  | openFail (msg : String)
  | contents (items : List DirItem) (readFail : Option String)

/-- stampProfiles mirrors part_000 lines 97-102: each decoded profile is
stamped with its table key as Name and the file path as Source. -/
def stampProfiles (path : String) (tbl : List (String × Profile)) : List Profile :=
  tbl.map (fun kp => { kp.2 with Name := kp.1, Source := path })

/-- joinPath models Go `filepath.Join(dir, name)`. -/
def joinPath (dir name : String) : String := dir ++ "/" ++ name

/-- processItems is the per-entry body of the ReadDir loop (part_000 lines
84-105): skip directories, fail the snapshot on a decode error, otherwise
stamp and merge. -/
def processItems (dir : String) : List Profile → List DirItem → Except String (List Profile)
  | nups, [] => Except.ok nups
  | nups, DirItem.subdir _ :: rest => processItems dir nups rest
  | nups, DirItem.file nm dec :: rest =>
      match dec with
      | Except.error e =>
          Except.error ("reading configuration " ++ joinPath dir nm ++ ": " ++ e)
      | Except.ok tbl =>
          processItems dir (mergeProfiles nups (stampProfiles (joinPath dir nm) tbl)) rest

/-- getProfiles mirrors Go `Configurations.getProfiles` (part_000 lines
57-109): copy the environment-derived base profiles; when no config
directory is set, return them; otherwise propagate an open failure, process
the enumerated entries, and propagate a read failure. -/
def getProfiles (c : Configurations) (fsd : DirState) : Except String (List Profile) :=
  let nups := c.Profiles.map Profile.Copy
  if c.ConfigDir.length < 1 then Except.ok nups
  else
    match fsd with
    | DirState.openFail m => Except.error ("opening config directory: " ++ m)
    | DirState.contents items readFail =>
        match processItems c.ConfigDir nups items with
        | Except.error e => Except.error e
        | Except.ok nups2 =>
            match readFail with
            | some m => Except.error ("reading contents of config directory: " ++ m)
            | none => Except.ok nups2

theorem processItems_error_of_bad_file (dir : String) (items : List DirItem)
    (nm d : String) (hmem : DirItem.file nm (Except.error d) ∈ items) :
    ∀ nups, ∃ e, processItems dir nups items = Except.error e := by
  induction items with
  | nil => cases hmem
  | cons it rest ih =>
      intro nups
      rcases List.mem_cons.mp hmem with hit | hrest
      · subst hit
        exact ⟨"reading configuration " ++ joinPath dir nm ++ ": " ++ d, rfl⟩
      · cases it with
        | subdir s => exact ih hrest nups
        | file fn dec =>
            cases dec with
            | error e2 => exact ⟨_, rfl⟩
            | ok tbl => exact ih hrest _

/-- Claim C3: the snapshot `getProfiles` propagates a directory open
failure, a directory read failure and any regular-file decode failure as an
error, while an unconfigured directory (empty ConfigDir) or an empty
directory yields the environment-derived base set with no error. -/
theorem getProfiles_error_behaviour (c : Configurations) (fsd : DirState)
    (items : List DirItem) (m nm d : String) :
    (c.ConfigDir = "" → getProfiles c fsd = Except.ok c.Profiles) ∧
    (c.ConfigDir ≠ "" →
      getProfiles c (DirState.openFail m) =
        Except.error ("opening config directory: " ++ m)) ∧
    (c.ConfigDir ≠ "" →
      ∃ e, getProfiles c (DirState.contents items (some m)) = Except.error e) ∧
    (c.ConfigDir ≠ "" → DirItem.file nm (Except.error d) ∈ items →
      ∃ e, getProfiles c (DirState.contents items none) = Except.error e) ∧
    (getProfiles c (DirState.contents [] none) = Except.ok c.Profiles) := by
  have hcopy : c.Profiles.map Profile.Copy = c.Profiles := by
    have hid : Profile.Copy = id := funext Profile.copy_eq
    rw [hid, List.map_id]
  have hlen : c.ConfigDir ≠ "" → ¬ c.ConfigDir.length < 1 := by
    intro h hl
    exact h (string_eq_empty_of_len c.ConfigDir hl)
  refine ⟨?_, ?_, ?_, ?_, ?_⟩
  · intro h
    simp [getProfiles, h, hcopy]
  · intro h
    simp [getProfiles, hlen h]
  · intro h
    cases hpi : processItems c.ConfigDir (c.Profiles.map Profile.Copy) items with
    | error e => exact ⟨e, by simp [getProfiles, hlen h, hpi]⟩
    | ok nups2 =>
        exact ⟨"reading contents of config directory: " ++ m,
          by simp [getProfiles, hlen h, hpi]⟩
  · intro h hmem
    obtain ⟨e, he⟩ :=
      processItems_error_of_bad_file c.ConfigDir items nm d hmem
        (c.Profiles.map Profile.Copy)
    exact ⟨e, by simp [getProfiles, hlen h, he]⟩
  · by_cases h : c.ConfigDir.length < 1
    · simp [getProfiles, h, hcopy]
    · simp [getProfiles, h, processItems, hcopy]

/-- Claim C3, witness: the theorem applied at a concrete configuration with
one base profile, a concrete open failure, a concrete decode failure and
the empty directory. -/
theorem getProfiles_error_behaviour_witness :
    (getProfiles { ConfigDir := "", Profiles := [{ Name := "P" }] }
        (DirState.openFail "boom") = Except.ok [{ Name := "P" }]) ∧
    (getProfiles { ConfigDir := "d", Profiles := [] } (DirState.openFail "boom") =
      Except.error ("opening config directory: " ++ "boom")) ∧
    (∃ e, getProfiles { ConfigDir := "d", Profiles := [] }
        (DirState.contents [] (some "rderr")) = Except.error e) ∧
    (∃ e, getProfiles { ConfigDir := "d", Profiles := [] }
        (DirState.contents [DirItem.file "f.toml" (Except.error "bad toml")] none) =
          Except.error e) ∧
    (getProfiles { ConfigDir := "d", Profiles := [{ Name := "P" }] }
        (DirState.contents [] none) = Except.ok [{ Name := "P" }]) := by
  have h1 := getProfiles_error_behaviour
    { ConfigDir := "", Profiles := [{ Name := "P" }] } (DirState.openFail "boom")
    [] "m" "nm" "d"
  have h2 := getProfiles_error_behaviour { ConfigDir := "d", Profiles := [] }
    (DirState.openFail "boom") [] "boom" "nm" "d"
  have h3 := getProfiles_error_behaviour { ConfigDir := "d", Profiles := [] }
    (DirState.contents [] (some "rderr")) [] "rderr" "nm" "d"
  have h4 := getProfiles_error_behaviour { ConfigDir := "d", Profiles := [] }
    (DirState.contents [DirItem.file "f.toml" (Except.error "bad toml")] none)
    [DirItem.file "f.toml" (Except.error "bad toml")] "m" "f.toml" "bad toml"
  have h5 := getProfiles_error_behaviour
    { ConfigDir := "d", Profiles := [{ Name := "P" }] }
    (DirState.contents [] none) [] "m" "nm" "d"
  refine ⟨h1.1 rfl, h2.2.1 (by decide), h3.2.2.1 (by decide),
    h4.2.2.2.1 (by decide) (by simp), h5.2.2.2.2⟩

/-! TLS-config building and the Instance command surface (src/inst.go).
The x509/tls library is an external collaborator: whether a PEM blob parses
into a certificate pool (`AppendCertsFromPEM`) and whether a cert/key pair
loads (`X509KeyPair`) are modelled as oracles in `TlsEnv`. A certificate
pool is represented by the authority PEM it was built from, a certificate
by its (cert PEM, key PEM) pair. -/

/-- TlsEnv: oracles for the external crypto library. -/
structure TlsEnv where
  appendCertsOk : String → Bool
  keyPairOk : String → String → Bool

inductive ClientAuthType where
  | NoClientCert
  | RequireAndVerifyClientCert
deriving DecidableEq

/-- TlsConfig models the fields of `tls.Config` that inst.go sets; the Go
zero value (`new(tls.Config)`) has no certificates, no pools and
NoClientCert. -/
structure TlsConfig where
  Certificates : List (String × String) := []
  ClientCAs : Option String := none
  ClientAuth : ClientAuthType := ClientAuthType.NoClientCert
  RootCAs : Option String := none
deriving DecidableEq

/-- SocketInfo mirrors the Go struct `socketInfo` (inst.go lines 31-34). -/
structure SocketInfo where
  tlsconf : Option TlsConfig
  net : String
  addr : String
deriving DecidableEq

/-- defaultProto mirrors the protocol defaulting at the head of
`changeListener`/`changeDesination` (inst.go lines 99-102). -/
def defaultProto (s : String) : String := if s.length < 1 then "tcp" else s

/-- listenAuthPart mirrors inst.go lines 111-118: when a listen authority
PEM is present, parse it into a client-CA pool (error when no certs are
found) and require-and-verify client certificates. -/
def listenAuthPart (env : TlsEnv) (p : Profile) : Except String TlsConfig :=
  if p.ListenAuthorityRaw.length > 0 then
    if env.appendCertsOk p.ListenAuthorityRaw then
      Except.ok { ClientCAs := some p.ListenAuthorityRaw,
                  ClientAuth := ClientAuthType.RequireAndVerifyClientCert }
    else Except.error "no certs found for the listen authority"
  else Except.ok {}

/-- listenCertPart mirrors inst.go lines 120-126: when a listen cert PEM is
present, load the cert/key pair (error when it does not load). -/
def listenCertPart (env : TlsEnv) (p : Profile) (t : TlsConfig) : Except String TlsConfig :=
  if p.ListenCertRaw.length > 0 then
    if env.keyPairOk p.ListenCertRaw p.ListenPrivateRaw then
      Except.ok { t with Certificates := [(p.ListenCertRaw, p.ListenPrivateRaw)] }
    else Except.error "loading cert/key pair"
  else Except.ok t

/-- changeListener mirrors Go `Instance.changeListener` (inst.go lines
98-130) up to the channel send: the socketInfo value it sends, or the error
it returns. -/
def changeListener (env : TlsEnv) (p : Profile) : Except String SocketInfo :=
  let proto := defaultProto p.Protocol
  if p.ListenAuthorityRaw.length < 1 ∧ p.ListenCertRaw.length < 1 then
    Except.ok { tlsconf := none, net := proto, addr := p.Listen }
  else
    match listenAuthPart env p with
    | Except.error e => Except.error e
    | Except.ok t1 =>
        match listenCertPart env p t1 with
        | Except.error e => Except.error e
        | Except.ok t2 =>
            Except.ok { tlsconf := some t2, net := proto, addr := p.Listen }

/-- sendAuthPart mirrors inst.go lines 145-151 (send side: root CAs, no
client-auth policy; the Go error message is the same copy-pasted text). -/
def sendAuthPart (env : TlsEnv) (p : Profile) : Except String TlsConfig :=
  if p.SendAuthorityRaw.length > 0 then
    if env.appendCertsOk p.SendAuthorityRaw then
      Except.ok { RootCAs := some p.SendAuthorityRaw }
    else Except.error "no certs found for the listen authority"
  else Except.ok {}

/-- sendCertPart mirrors inst.go lines 153-159. -/
def sendCertPart (env : TlsEnv) (p : Profile) (t : TlsConfig) : Except String TlsConfig :=
  if p.SendCertRaw.length > 0 then
    if env.keyPairOk p.SendCertRaw p.SendPrivateRaw then
      Except.ok { t with Certificates := [(p.SendCertRaw, p.SendPrivateRaw)] }
    else Except.error "loading cert/key pair"
  else Except.ok t

/-- changeDesination mirrors Go `Instance.changeDesination` (inst.go lines
132-163) up to the channel send. -/
def changeDesination (env : TlsEnv) (p : Profile) : Except String SocketInfo :=
  let proto := defaultProto p.Protocol
  if p.SendAuthorityRaw.length < 1 ∧ p.SendCertRaw.length < 1 then
    Except.ok { tlsconf := none, net := proto, addr := p.Proxy }
  else
    match sendAuthPart env p with
    | Except.error e => Except.error e
    | Except.ok t1 =>
        match sendCertPart env p t1 with
        | Except.error e => Except.error e
        | Except.ok t2 =>
            Except.ok { tlsconf := some t2, net := proto, addr := p.Proxy }

/-- Cmd: a command sent to the Instance event loop on `newDest` or
`newList`; a nil pointer in Go is `none`. -/
inductive Cmd where
  | newDest (x : Option SocketInfo)
  | newList (x : Option SocketInfo)
deriving DecidableEq

/-- changeListenerSend: `changeListener` including its channel send — the
commands it emits and the error it returns. -/
def changeListenerSend (env : TlsEnv) (p : Profile) : List Cmd × Option String :=
  match changeListener env p with
  | Except.ok si => ([Cmd.newList (some si)], none)
  | Except.error e => ([], some e)

/-- changeDesinationSend: `changeDesination` including its channel send. -/
def changeDesinationSend (env : TlsEnv) (p : Profile) : List Cmd × Option String :=
  match changeDesination env p with
  | Except.ok si => ([Cmd.newDest (some si)], none)
  | Except.error e => ([], some e)

/-- changeEverything mirrors inst.go lines 165-172: destination first; the
listener only when the destination step succeeded. -/
def changeEverything (env : TlsEnv) (p : Profile) : List Cmd × Option String :=
  match changeDesinationSend env p with
  | (cs, some e) => (cs, some e)
  | (cs, none) =>
      let r := changeListenerSend env p
      (cs ++ r.1, r.2)

/-- InstState: the externally mutable part of the Go `Instance` (inst.go
lines 14-24): its identifier, the stored profile reference and the closed
flag. The channels are modelled by the command list each operation emits. -/
structure InstState where
  ident : String
  p : Profile
  closed : Bool
deriving DecidableEq

/-- AdaptTo mirrors Go `Instance.AdaptTo` (inst.go lines 56-82): a no-op
returning nil when closed; otherwise the changed-predicates select which
commands to emit, and on success the stored profile reference is replaced.
Result: (new state, commands sent, returned error). -/
def AdaptTo (env : TlsEnv) (s : InstState) (q : Profile) :
    InstState × List Cmd × Option String :=
  if s.closed then (s, [], none)
  else
    let lc := ListenChanged s.p q
    let dc := DestinationChanged s.p q
    let r : List Cmd × Option String :=
      if lc && dc then changeEverything env q
      else if lc then changeListenerSend env q
      else if dc then changeDesinationSend env q
      else ([], none)
    match r with
    | (cs, some e) => (s, cs, some e)
    | (cs, none) => ({ s with p := q }, cs, none)

/-- Stop mirrors Go `Instance.Stop` (inst.go lines 84-96): idempotent; on
the first call it sends a nil destination command and a nil listener
command and latches the closed flag. -/
def Stop (s : InstState) : InstState × List Cmd :=
  if s.closed then (s, [])
  else ({ s with closed := true }, [Cmd.newDest none, Cmd.newList none])

/-- Claim C4: after `Stop` has completed, `AdaptTo` with any profile returns
success (nil error), sends no destination or listener command, and leaves
the stored profile reference and the closed flag unchanged. -/
theorem adaptTo_after_stop (env : TlsEnv) (s : InstState) (q : Profile) :
    AdaptTo env (Stop s).1 q = ((Stop s).1, [], none) := by
  by_cases h : s.closed <;> simp [Stop, AdaptTo, h]

/-- Claim C10: on an open Instance, when neither ListenChanged nor
DestinationChanged holds against the current profile, AdaptTo sends no
command, returns success, and replaces the stored profile reference. -/
theorem adaptTo_unchanged_noop (env : TlsEnv) (s : InstState) (q : Profile)
    (hopen : s.closed = false)
    (hlc : ListenChanged s.p q = false)
    (hdc : DestinationChanged s.p q = false) :
    AdaptTo env s q = ({ s with p := q }, [], none) := by
  simp [AdaptTo, hopen, hlc, hdc]

/-- Claim C10, witness: a concrete open instance and a profile differing
only in name (which neither predicate inspects). -/
theorem adaptTo_unchanged_noop_witness :
    AdaptTo { appendCertsOk := fun _ => true, keyPairOk := fun _ _ => true }
      { ident := "P", p := { Name := "P" }, closed := false } { Name := "Q" } =
      ({ ident := "P", p := { Name := "Q" }, closed := false }, [], none) :=
  adaptTo_unchanged_noop _ _ _ rfl (by decide) (by decide)

/-- Claim C8: the listen-side TLS configuration built from a resolved
profile is absent iff both the listen-authority PEM and the listen-cert PEM
are empty; when present it carries the cert/key pair from listen-cert and
listen-private-key iff the listen-cert PEM is non-empty, uses the parsed
listen-authority as client trust anchors with required-and-verified client
authentication iff the listen-authority PEM is non-empty, and an unparsable
authority PEM or cert/key pair yields an error. -/
theorem changeListener_tls_config (env : TlsEnv) (p : Profile) :
    (changeListener env p =
        Except.ok { tlsconf := none, net := defaultProto p.Protocol, addr := p.Listen }
      ↔ (p.ListenAuthorityRaw = "" ∧ p.ListenCertRaw = "")) ∧
    (∀ si t, changeListener env p = Except.ok si → si.tlsconf = some t →
      (t.Certificates =
          if p.ListenCertRaw = "" then [] else [(p.ListenCertRaw, p.ListenPrivateRaw)]) ∧
      (t.ClientCAs = if p.ListenAuthorityRaw = "" then none else some p.ListenAuthorityRaw) ∧
      (t.ClientAuth = ClientAuthType.RequireAndVerifyClientCert ↔ p.ListenAuthorityRaw ≠ "")) ∧
    (p.ListenAuthorityRaw ≠ "" → env.appendCertsOk p.ListenAuthorityRaw = false →
      ∃ e, changeListener env p = Except.error e) ∧
    (p.ListenCertRaw ≠ "" → env.keyPairOk p.ListenCertRaw p.ListenPrivateRaw = false →
      ∃ e, changeListener env p = Except.error e) := by
  have hlen : ∀ s : String, s.length < 1 ↔ s = "" :=
    fun s => ⟨string_eq_empty_of_len s, fun h => by subst h; decide⟩
  have hpos : ∀ s : String, 0 < s.length ↔ s ≠ "" := by
    intro s
    constructor
    · intro h he
      subst he
      simp at h
    · intro h
      by_contra hb
      exact h (string_eq_empty_of_len s (by omega))
  by_cases ha : p.ListenAuthorityRaw = "" <;>
  by_cases hc : p.ListenCertRaw = "" <;>
  by_cases hac : env.appendCertsOk p.ListenAuthorityRaw <;>
  by_cases hkp : env.keyPairOk p.ListenCertRaw p.ListenPrivateRaw <;>
  simp [changeListener, listenAuthPart, listenCertPart, hlen, hpos, ha, hc, hac, hkp] <;>
  · rintro si t rfl ht
    simp at ht
    all_goals
      subst ht
      simp

/-- Claim C8, witness: the theorem applied to a credential-free profile
(no TLS config) and to a profile whose authority PEM fails to parse
(error). -/
theorem changeListener_tls_config_witness :
    (changeListener { appendCertsOk := fun _ => true, keyPairOk := fun _ _ => true }
        { Name := "P" } = Except.ok { tlsconf := none, net := "tcp", addr := "" }) ∧
    (∃ e, changeListener { appendCertsOk := fun _ => false, keyPairOk := fun _ _ => true }
        { Name := "P", ListenAuthorityRaw := "A" } = Except.error e) := by
  constructor
  · exact (changeListener_tls_config
      { appendCertsOk := fun _ => true, keyPairOk := fun _ _ => true }
      { Name := "P" }).1.mpr ⟨rfl, rfl⟩
  · exact (changeListener_tls_config
      { appendCertsOk := fun _ => false, keyPairOk := fun _ _ => true }
      { Name := "P", ListenAuthorityRaw := "A" }).2.2.1 (by decide) rfl

/-! The Instance event loop (`Instance.run`, inst.go lines 174-227): a
single-threaded actor. Its state is the tuple (listener, dest, conCloser,
count, rev) plus the instance identifier; revocation channels are
identified by an allocation counter `chanGen`. Each handler runs to
completion and emits its observable operations, in source order, as a
list of `Effect` micro-operations. -/

structure LoopState where
  ident : String
  listener : Bool
  dest : Option SocketInfo
  conCloser : Option Nat
  chanGen : Nat
  count : Nat
  rev : Nat
deriving DecidableEq

inductive Event where
  | newCon (cident : String)
  | newDest (x : Option SocketInfo)
  | newList (x : Option SocketInfo)
  | fin
deriving DecidableEq

inductive Effect where
  | spawnSession (ident : String) (dest : SocketInfo) (closer : Option Nat)
  | closeConn (cident : String)
  | tripRevocation (ch : Nat)
  | installDest (x : Option SocketInfo)
  | allocRevocation (ch : Nat)
  | closeListener
  | openListener (si : SocketInfo)
  | exitLoop
deriving DecidableEq

/-- natStr: decimal rendering of a Nat, for the `%d` verbs of the Go
identifier format strings. -/
def natStr (n : Nat) : String := Nat.repr n

/-- connIdent: the Go format `fmt.Sprintf("%s$%d#%d", inst.ident, rev,
count)` (inst.go line 185). -/
def connIdent (ident : String) (rev count : Nat) : String :=
  ident ++ "$" ++ natStr rev ++ "#" ++ natStr count

/-- stepCon mirrors the `case con := <-inst.newCon` arm (inst.go lines
183-190): with a destination present, spawn one forwarding session bound
to the current dest value and the current conCloser and increment count;
otherwise close the inbound socket. -/
def stepCon (s : LoopState) (cident : String) : LoopState × List Effect :=
  match s.dest with
  | some d =>
      ({ s with count := s.count + 1 },
        [Effect.spawnSession (connIdent s.ident s.rev s.count) d s.conCloser])
  | none => (s, [Effect.closeConn cident])

/-- stepDest mirrors the `case x := <-inst.newDest` arm (inst.go lines
191-200), with its effects in source order: increment rev; close the
previous conCloser when one exists; install the new dest; when the new
dest is non-nil, allocate a fresh conCloser (when it is nil, the Go code
leaves the old, closed channel in place). -/
def stepDest (s : LoopState) (x : Option SocketInfo) : LoopState × List Effect :=
  let tripFx : List Effect :=
    match s.conCloser with
    | some ch => [Effect.tripRevocation ch]
    | none => []
  match x with
  | some si =>
      ({ s with
          rev := s.rev + 1
          dest := some si
          conCloser := some s.chanGen
          chanGen := s.chanGen + 1 },
        tripFx ++ [Effect.installDest (some si), Effect.allocRevocation s.chanGen])
  | none =>
      ({ s with rev := s.rev + 1, dest := none },
        tripFx ++ [Effect.installDest none])

/-- stepList mirrors the `case x := <-inst.newList` arm (inst.go lines
201-222): close any existing listener, increment rev, then either clear
the listener (nil command), open the new one, or — when opening fails,
decided by the oracle `lok` — keep going with the stale listener flag as
the Go code leaves the old variable value in place. -/
def stepList (lok : SocketInfo → Bool) (s : LoopState) (x : Option SocketInfo) :
    LoopState × List Effect :=
  let closeFx : List Effect := if s.listener then [Effect.closeListener] else []
  match x with
  | none => ({ s with rev := s.rev + 1, listener := false }, closeFx)
  | some si =>
      if lok si then
        ({ s with rev := s.rev + 1, listener := true }, closeFx ++ [Effect.openListener si])
      else ({ s with rev := s.rev + 1 }, closeFx)

/-- step: one iteration of the event loop's select (inst.go lines 181-226). -/
def step (lok : SocketInfo → Bool) (s : LoopState) : Event → LoopState × List Effect
  | Event.newCon cident => stepCon s cident
  | Event.newDest x => stepDest s x
  | Event.newList x => stepList lok s x
  | Event.fin => (s, [Effect.exitLoop])

/-- run: the event loop over a list of delivered events; the loop returns
on `fin` and ignores anything after it. -/
def run (lok : SocketInfo → Bool) (s : LoopState) : List Event → LoopState × List Effect
  | [] => (s, [])
  | Event.fin :: _ => (s, [Effect.exitLoop])
  | e :: rest =>
      let r1 := step lok s e
      let r2 := run lok r1.1 rest
      (r2.1, r1.2 ++ r2.2)

/-- tripThenInstall l: some tripRevocation micro-operation occurs strictly
before some installDest micro-operation in the list l. -/
def tripThenInstall : List Effect → Bool
  | [] => false
  | Effect.tripRevocation _ :: rest =>
      rest.any (fun e => match e with | Effect.installDest _ => true | _ => false)
        || tripThenInstall rest
  | _ :: rest => tripThenInstall rest

/-- siOld: a concrete plain-TCP destination used in concrete statements. -/
def siOld : SocketInfo := { tlsconf := none, net := "tcp", addr := "old" }

/-- siNew: a concrete plain-TCP destination used in concrete statements. -/
def siNew : SocketInfo := { tlsconf := none, net := "tcp", addr := "new" }

/-- siD: a concrete plain-TCP destination used in concrete statements. -/
def siD : SocketInfo := { tlsconf := none, net := "tcp", addr := "d" }

/-- lsLive: a concrete loop state with a live revocation channel. -/
def lsLive : LoopState :=
  { ident := "P", listener := true, dest := some siOld,
    conCloser := some 0, chanGen := 1, count := 0, rev := 1 }

/-- lsQ: a concrete loop state with a live revocation channel and no dest. -/
def lsQ : LoopState :=
  { ident := "Q", listener := false, dest := none,
    conCloser := some 3, chanGen := 4, count := 2, rev := 5 }

/-- lsWithDest: a concrete loop state with a destination installed. -/
def lsWithDest : LoopState :=
  { ident := "P", listener := true, dest := some siD,
    conCloser := some 7, chanGen := 8, count := 4, rev := 2 }

/-- lsNoDest: a concrete loop state with no destination. -/
def lsNoDest : LoopState :=
  { ident := "P", listener := true, dest := none, conCloser := none,
    chanGen := 0, count := 0, rev := 0 }

/-- Claim C1, counterexample: in the destination-update handler the
revocation IS tripped strictly before the new dest is installed. At the
concrete loop state lsLive, which holds a live revocation channel, the
handler's micro-operations are [tripRevocation, installDest,
allocRevocation]; this refutes the claim's clause that tripping the
revocation never precedes the installation of the new dest (the source
closes `conCloser` on inst.go lines 193-195 and only then assigns
`dest = x` on line 197). -/
theorem stepDest_trips_before_install :
    (stepDest lsLive (some siNew)).2 =
      [Effect.tripRevocation 0, Effect.installDest (some siNew),
        Effect.allocRevocation 1] ∧
    tripThenInstall (stepDest lsLive (some siNew)).2 = true := by
  exact ⟨by decide, by decide⟩

/-- Claim C1, amended: within the destination-update handler the previous
revocation channel is tripped immediately BEFORE the new destination
reference is installed, but the handler runs atomically inside the
single-threaded event loop, so the claimed guarantee still holds: after
the command, the loop's dest is exactly the command value, every
connection accepted after the command observes the new dest — the session
it spawns is bound to the new dest value and the fresh revocation channel
— and a nil command makes subsequent connections be closed immediately. -/
theorem stepDest_ordering_and_binding (s : LoopState) (x : Option SocketInfo)
    (cident : String) :
    ((stepDest s x).1.dest = x) ∧
    (s.conCloser.isSome = true → tripThenInstall (stepDest s x).2 = true) ∧
    (∀ si, x = some si →
      (stepCon (stepDest s x).1 cident).2 =
        [Effect.spawnSession (connIdent s.ident (s.rev + 1) s.count)
          si (some s.chanGen)]) ∧
    (x = none →
      (stepCon (stepDest s x).1 cident).2 = [Effect.closeConn cident]) := by
  refine ⟨?_, ?_, ?_, ?_⟩
  · cases x <;> rfl
  · intro h
    rcases Option.isSome_iff_exists.mp h with ⟨ch, hc⟩
    cases x <;> simp [stepDest, hc, tripThenInstall]
  · rintro si rfl
    simp [stepDest, stepCon]
  · rintro rfl
    simp [stepDest, stepCon]

/-- Claim C1 (amended), witness: the amended theorem applied at the
concrete state lsQ, with a live revocation channel, and the concrete new
destination siD. -/
theorem stepDest_ordering_and_binding_witness :
    tripThenInstall (stepDest lsQ (some siD)).2 = true ∧
    (stepCon (stepDest lsQ (some siD)).1 "c").2 =
      [Effect.spawnSession "Q$6#2" siD (some 4)] := by
  have h := stepDest_ordering_and_binding lsQ (some siD) "c"
  refine ⟨h.2.1 rfl, ?_⟩
  have h2 := h.2.2.1 siD rfl
  rw [h2]
  decide

/-- Claim C9: for every accepted connection delivered to the event loop,
if the current dest is absent the inbound socket is closed and no session
spawned; otherwise exactly one forwarding session is spawned, bound to the
dest value and the revocation channel in effect at that moment, with
identifier "{profile-name}${rev}#{count}" and count incremented by one;
and the events handled afterwards only append effects, never altering the
binding recorded at spawn time. -/
theorem stepCon_session_binding (lok : SocketInfo → Bool) (s : LoopState)
    (cident : String) (es : List Event) :
    (s.dest = none → stepCon s cident = (s, [Effect.closeConn cident])) ∧
    (∀ d, s.dest = some d →
      stepCon s cident = ({ s with count := s.count + 1 },
        [Effect.spawnSession (connIdent s.ident s.rev s.count) d s.conCloser])) ∧
    ((run lok s (Event.newCon cident :: es)).2 =
      (stepCon s cident).2 ++ (run lok (stepCon s cident).1 es).2) := by
  refine ⟨?_, ?_, ?_⟩
  · intro h
    simp [stepCon, h]
  · intro d h
    simp [stepCon, h]
  · rfl

/-- Claim C9, witness: the theorem applied at the concrete state lsWithDest
(destination present: one session spawned, bound to that destination and
the current revocation channel, with identifier "P$2#4") and at lsNoDest
(destination absent: the inbound socket is closed). -/
theorem stepCon_session_binding_witness :
    stepCon lsWithDest "c" =
      ({ lsWithDest with count := 5 },
        [Effect.spawnSession "P$2#4" siD (some 7)]) ∧
    stepCon lsNoDest "c" = (lsNoDest, [Effect.closeConn "c"]) := by
  constructor
  · have h := (stepCon_session_binding (fun _ => true) lsWithDest "c" []).2.1 siD rfl
    rw [h]
    decide
  · exact (stepCon_session_binding (fun _ => true) lsNoDest "c" []).1 rfl

/-! Supervisor reload cycle (`profileLoop`, main.go lines 50-134). One
cycle takes the current instance list and the freshly snapshotted profile
list; credential resolution (file reads) and instance construction are
external effects, modelled by oracles in `ReloadEnv`. Instances are
identified by an id so that Go pointer identity (`i == insts[ii]`) is
expressible. -/

/-- InstanceR: a supervisor-held instance — its identity and the profile it
currently runs. -/
structure InstanceR where
  id : Nat
  p : Profile
deriving DecidableEq, Inhabited

/-- SupAction: the externally visible operations of one reload cycle, in
the order they are performed. -/
inductive SupAction where
  | stop (i : InstanceR)
  | adapt (i : InstanceR) (q : Profile)
  | add (q : Profile)
deriving DecidableEq

/-- ReloadEnv: oracles for the reload's external effects. -/
structure ReloadEnv where
  resolve : Profile → Except String Profile
  newOk : Profile → Bool
  adaptErr : InstanceR → Profile → Bool

/-- swapRemove models the Go slice removal idiom used in profileLoop
(lines 87-88 and 109-110): overwrite index i with the last element, then
shrink by one. -/
def swapRemove (l : List InstanceR) (i : Nat) : List InstanceR :=
  match l.getLast? with
  | none => []
  | some last => (l.set i last).dropLast

/-- extractByName models the inner search of the partition loop (main.go
lines 76-90): find the first remaining instance with the given profile
name; on a hit, return it together with the remaining list after the
swap-removal. -/
def extractByName (l : List InstanceR) (nm : String) : Option (InstanceR × List InstanceR) :=
  match l.findIdx? (fun i => i.p.Name == nm) with
  | none => none
  | some i =>
      match l[i]? with
      | none => none
      | some inst => some (inst, swapRemove l i)

/-- reloadPartition mirrors the resolve-and-partition loop of profileLoop
(main.go lines 59-95): resolve each new profile in order; on the first
failure set abort and break (modelled as `none`); classify each resolved
profile as a modification of the first remaining same-name instance or as
an addition. Returns (instances left to remove, modifications, additions). -/
def reloadPartition (resolve : Profile → Except String Profile) :
    List Profile → List InstanceR → List (Profile × InstanceR) → List Profile →
    Option (List InstanceR × List (Profile × InstanceR) × List Profile)
  | [], removeInst, modifyInst, addInst => some (removeInst, modifyInst, addInst)
  | q :: rest, removeInst, modifyInst, addInst =>
      match resolve q with
      | Except.error _ => none
      | Except.ok rq =>
          match extractByName removeInst rq.Name with
          | some (inst, remaining) =>
              reloadPartition resolve rest remaining
                (modifyInst ++ [(rq, inst)]) addInst
          | none => reloadPartition resolve rest removeInst modifyInst (addInst ++ [rq])

/-- removeByIdentity models `if i == insts[ii]` (main.go lines 107-113):
remove the first list entry equal to the given instance, with the
swap-removal idiom. -/
def removeByIdentity (insts : List InstanceR) (i : InstanceR) : List InstanceR :=
  match insts.findIdx? (fun j => j == i) with
  | none => insts
  | some ix => swapRemove insts ix

/-- applyRemoves mirrors main.go lines 101-114: stop each removed instance
and take it out of the supervisor's list. -/
def applyRemoves : List InstanceR → List InstanceR → List InstanceR × List SupAction
  | [], insts => (insts, [])
  | i :: rest, insts =>
      let r := applyRemoves rest (removeByIdentity insts i)
      (r.1, SupAction.stop i :: r.2)

/-- applyModifies mirrors main.go lines 116-122: AdaptTo each modified
instance with its new profile; on success the instance's stored profile
reference changes, on error it is kept as it was (the error is logged). -/
def applyModifies (env : ReloadEnv) :
    List (Profile × InstanceR) → List InstanceR → List InstanceR × List SupAction
  | [], insts => (insts, [])
  | (q, i) :: rest, insts =>
      let insts1 :=
        if env.adaptErr i q then insts
        else insts.map (fun j => if j.id = i.id then { j with p := q } else j)
      let r := applyModifies env rest insts1
      (r.1, SupAction.adapt i q :: r.2)

/-- applyAdds mirrors main.go lines 124-133: construct a new instance per
added profile; on a construction error the instance is not retained. -/
def applyAdds (env : ReloadEnv) (fresh : Nat) :
    List Profile → List InstanceR → List InstanceR × List SupAction
  | [], insts => (insts, [])
  | q :: rest, insts =>
      if env.newOk q then
        let r := applyAdds env (fresh + 1) rest (insts ++ [{ id := fresh, p := q }])
        (r.1, SupAction.add q :: r.2)
      else
        let r := applyAdds env fresh rest insts
        (r.1, SupAction.add q :: r.2)

/-- reloadCycle mirrors one iteration of profileLoop's reload loop body
(main.go lines 59-133) after a successful snapshot: partition (aborting on
any resolve failure, in which case nothing else happens and the instance
list is kept), then apply removes, modifications and additions in that
order. Returns the new instance list and the actions performed. -/
def reloadCycle (env : ReloadEnv) (insts : List InstanceR) (np : List Profile)
    (fresh : Nat) : List InstanceR × List SupAction :=
  match reloadPartition env.resolve np insts [] [] with
  | none => (insts, [])
  | some (removeInst, modifyInst, addInst) =>
      let r1 := applyRemoves removeInst insts
      let r2 := applyModifies env modifyInst r1.1
      let r3 := applyAdds env fresh addInst r2.1
      (r3.1, r1.2 ++ r2.2 ++ r3.2)

/-- resolveFails: the given resolve oracle fails on this profile. -/
def resolveFails (resolve : Profile → Except String Profile) (q : Profile) : Bool :=
  match resolve q with
  | Except.error _ => true
  | Except.ok _ => false

theorem reloadPartition_none_of_fail (resolve : Profile → Except String Profile)
    (np : List Profile) (hq : ∃ q ∈ np, resolveFails resolve q = true) :
    ∀ removeInst modifyInst addInst,
      reloadPartition resolve np removeInst modifyInst addInst = none := by
  induction np with
  | nil => obtain ⟨q, hmem, _⟩ := hq; cases hmem
  | cons q0 rest ih =>
      intro removeInst modifyInst addInst
      obtain ⟨q, hmem, hfail⟩ := hq
      rcases List.mem_cons.mp hmem with hq0 | hrest
      · subst hq0
        unfold resolveFails at hfail
        cases hr : resolve q with
        | error e => simp [reloadPartition, hr]
        | ok rq => rw [hr] at hfail; simp at hfail
      · cases hr : resolve q0 with
        | error e => simp [reloadPartition, hr]
        | ok rq =>
            have ih2 := ih ⟨q, hrest, hfail⟩
            cases hx : extractByName removeInst rq.Name with
            | none => simp [reloadPartition, hr, hx, ih2]
            | some pr => simp [reloadPartition, hr, hx, ih2]

/-- Claim C7: on a reload cycle, if credential resolution fails for any
profile in the new snapshot, the entire reload is aborted before any
Instance is stopped, adapted or added: no supervisor action is performed
and the instance set is exactly what it was before the reload. -/
theorem reloadCycle_abort_on_resolve_failure (env : ReloadEnv)
    (insts : List InstanceR) (np : List Profile) (fresh : Nat)
    (hq : ∃ q ∈ np, resolveFails env.resolve q = true) :
    reloadCycle env insts np fresh = (insts, []) := by
  unfold reloadCycle
  rw [reloadPartition_none_of_fail env.resolve np hq insts [] []]

/-- Claim C7, witness: a concrete reload with two running instances and a
snapshot whose second profile fails to resolve; the instance set is kept
and no stop, adapt or add action happens. -/
theorem reloadCycle_abort_witness :
    reloadCycle
      { resolve := fun q => if q.Name = "D" then Except.error "no such file" else Except.ok q
        newOk := fun _ => true
        adaptErr := fun _ _ => false }
      [{ id := 0, p := { Name := "A" } }, { id := 1, p := { Name := "B" } }]
      [{ Name := "A" }, { Name := "D" }] 2 =
      ([{ id := 0, p := { Name := "A" } }, { id := 1, p := { Name := "B" } }], []) := by
  exact reloadCycle_abort_on_resolve_failure _ _ _ _ ⟨{ Name := "D" }, by simp, by decide⟩

end MtlsProxy
